import Mathlib

set_option maxRecDepth 16000

/-!
# Verification of the Magic_Stories booking core

Shallow embedding of the booking client's core logic:

* `generateTimeSlots` from `frontend/src/utils/dateTime.ts`;
* `calculateTotals` from `frontend/src/pages/BookingSummary.tsx` and the
  capped-deposit variant of the same function found in the repository;
* the phone/email validators and the phone normalizer from
  `frontend/src/utils/validation.ts`.

Modeling conventions:

* A JavaScript number is modeled by `JSNum`: `NaN`, `+Infinity`, `-Infinity`,
  or an exact rational.  Double-precision rounding of finite values is
  idealized as exact rational arithmetic (all values appearing in the claims
  are exactly representable doubles); overflow of string-to-number conversion
  beyond the largest double is modeled by `jsOverflow`, which maps such
  values to the infinities, as JavaScript does.
* `Number(string)` and `parseFloat(string)` are modeled by `jsNumber` and
  `jsParseFloat` following the ECMAScript grammar (whitespace trimming,
  the empty string converting to `0`, `Infinity` literals, hex/octal/binary
  forms for `Number`, longest-valid-prefix semantics for `parseFloat`).
* Strings are processed as `List Char`; the source's `String.split` on a
  one-character separator is `splitOnChar`.
* `generateTimeSlots` returns the list of generated slot start times by
  their minute-of-day value (the source formats each start `t` as the
  string `HH:MM` with `HH = Math.floor(t / 60)` and `MM = t % 60`, a
  bijective rendering for the in-range times the claims quantify over).
  The `for` loop of the source diverges when the parsed closing bound is
  `+Infinity` (or the parsed opening is `-Infinity`): the loop condition
  then never becomes false.  The model returns `Option`, with `none`
  standing for that divergence and `some slots` for normal return.
-/

/-- A JavaScript number: `NaN`, the two infinities, or a finite value
(idealized as an exact rational). -/
inductive JSNum where
  | nan : JSNum
  | inf : JSNum
  | ninf : JSNum
  | num : ℚ → JSNum
deriving DecidableEq, Repr

namespace JSNum

/-- JavaScript `+` on numbers: `NaN` propagates, `Infinity + -Infinity = NaN`. -/
def jsAdd : JSNum → JSNum → JSNum
  | nan, _ => nan
  | _, nan => nan
  | inf, ninf => nan
  | ninf, inf => nan
  | inf, _ => inf
  | _, inf => inf
  | ninf, _ => ninf
  | _, ninf => ninf
  | num a, num b => num (a + b)

/-- JavaScript `*` on numbers: `NaN` propagates, `0 * Infinity = NaN`,
otherwise infinities follow the sign rule. -/
def jsMul : JSNum → JSNum → JSNum
  | nan, _ => nan
  | _, nan => nan
  | inf, inf => inf
  | inf, ninf => ninf
  | ninf, inf => ninf
  | ninf, ninf => inf
  | inf, num b => if b > 0 then inf else if b < 0 then ninf else nan
  | num a, inf => if a > 0 then inf else if a < 0 then ninf else nan
  | ninf, num b => if b > 0 then ninf else if b < 0 then inf else nan
  | num a, ninf => if a > 0 then ninf else if a < 0 then inf else nan
  | num a, num b => num (a * b)

/-- JavaScript `Math.min` on two numbers: `NaN` if either argument is `NaN`. -/
def jsMin : JSNum → JSNum → JSNum
  | nan, _ => nan
  | _, nan => nan
  | ninf, _ => ninf
  | _, ninf => ninf
  | inf, b => b
  | a, inf => a
  | num a, num b => num (min a b)

/-- JavaScript `<=` on numbers: any comparison with `NaN` is false. -/
def jsLe : JSNum → JSNum → Bool
  | nan, _ => false
  | _, nan => false
  | ninf, _ => true
  | _, inf => true
  | inf, _ => false
  | _, ninf => false
  | num a, num b => decide (a ≤ b)

/-- Whether the number is finite. -/
def isNum : JSNum → Bool
  | num _ => true
  | _ => false

/-- Whether the number is finite or `NaN` (i.e. not an infinity). -/
def finOrNaN : JSNum → Bool
  | inf => false
  | ninf => false
  | _ => true

/-- The rational value of a finite `JSNum` (junk value `0` otherwise). -/
def toQ : JSNum → ℚ
  | num q => q
  | _ => 0

end JSNum

open JSNum

/-- The overflow threshold of IEEE double conversion: decimal values of
magnitude at least `2^1024 - 2^970` convert to the infinities. -/
def jsOverflow (q : ℚ) : JSNum :=
  if ((2 ^ 1024 - 2 ^ 970 : ℕ) : ℚ) ≤ q then JSNum.inf
  else if q ≤ -((2 ^ 1024 - 2 ^ 970 : ℕ) : ℚ) then JSNum.ninf
  else JSNum.num q

/-- The ECMAScript whitespace and line-terminator characters trimmed by
`String.prototype.trim` and by string-to-number conversion. -/
def isJsSpace (c : Char) : Bool :=
  c.toNat ∈ [9, 10, 11, 12, 13, 32, 160, 5760, 8192, 8193, 8194, 8195, 8196,
    8197, 8198, 8199, 8200, 8201, 8202, 8232, 8233, 8239, 8287, 12288, 65279]

/-- JavaScript `String.prototype.trim` on a character list. -/
def jsTrim (l : List Char) : List Char :=
  (l.dropWhile isJsSpace).reverse.dropWhile isJsSpace |>.reverse

/-- Value of a decimal digit string (most significant first). -/
def natOfDigits (l : List Char) : ℕ :=
  l.foldl (fun acc c => 10 * acc + (c.toNat - 48)) 0

/-- Whether a character is an ASCII hexadecimal digit. -/
def isHexDigit (c : Char) : Bool :=
  c.isDigit || (97 ≤ c.toNat && c.toNat ≤ 102) || (65 ≤ c.toNat && c.toNat ≤ 70)

/-- Value of one hexadecimal digit. -/
def hexDigitVal (c : Char) : ℕ :=
  if c.isDigit then c.toNat - 48
  else if 97 ≤ c.toNat then c.toNat - 87
  else c.toNat - 55

/-- Value of a hexadecimal digit string. -/
def natOfHexDigits (l : List Char) : ℕ :=
  l.foldl (fun acc c => 16 * acc + hexDigitVal c) 0

/-- Value of a binary digit string. -/
def natOfBinDigits (l : List Char) : ℕ :=
  l.foldl (fun acc c => 2 * acc + (c.toNat - 48)) 0

/-- Value of an octal digit string. -/
def natOfOctDigits (l : List Char) : ℕ :=
  l.foldl (fun acc c => 8 * acc + (c.toNat - 48)) 0

/-- JavaScript `str.split(sep)` for a one-character separator. -/
def splitOnChar (sep : Char) : List Char → List (List Char)
  | [] => [[]]
  | c :: rest =>
    match splitOnChar sep rest with
    | [] => [[c]]
    | h :: t => if c = sep then [] :: h :: t else (c :: h) :: t

/-- Leading sign of a numeric literal: whether the literal is negative,
and the remaining characters. -/
def signSplit (l : List Char) : Bool × List Char :=
  if l.head? = some '+' then (false, l.tail)
  else if l.head? = some '-' then (true, l.tail)
  else (false, l)

/-- Optional exponent suffix of a numeric literal: the whole remainder must
be empty or a well-formed `e`/`E` exponent part. -/
def parseExpAll (l : List Char) : Option ℤ :=
  match l with
  | [] => some 0
  | c :: rest =>
    if c = 'e' ∨ c = 'E' then
      let (eneg, ds) := signSplit rest
      if ds ≠ [] ∧ ds.all Char.isDigit then
        some ((if eneg then -1 else 1) * natOfDigits ds)
      else none
    else none

/-- The value `±(ip + fp / 10^flen) · 10^e` of a decimal literal with
integer-part digits valued `ip`, fraction digits valued `fp` of length
`flen`, and exponent `e` — built with `mkRat` over integer arithmetic. -/
def decLiteralVal (neg : Bool) (ip fp flen : ℕ) (e : ℤ) : ℚ :=
  let m : ℤ := (if neg then -1 else 1) * (ip * 10 ^ flen + fp)
  if 0 ≤ e then mkRat (m * 10 ^ e.toNat) (10 ^ flen)
  else mkRat m (10 ^ flen * 10 ^ (-e).toNat)

/-- The signed `StrDecimalLiteral` grammar (without the `Infinity` form):
`digits [. digits] [exp]` or `. digits [exp]`, matching the whole input,
with the sign supplied by the caller. -/
def parseDecLiteral (neg : Bool) (l : List Char) : Option ℚ :=
  let ip := l.takeWhile Char.isDigit
  let r1 := l.drop ip.length
  let (fp, r2) : List Char × List Char :=
    if r1.head? = some '.' then
      (r1.tail.takeWhile Char.isDigit,
       r1.tail.drop (r1.tail.takeWhile Char.isDigit).length)
    else ([], r1)
  if ip = [] ∧ fp = [] then none
  else
    match parseExpAll r2 with
    | none => none
    | some e => some (decLiteralVal neg (natOfDigits ip) (natOfDigits fp) fp.length e)

/-- ECMAScript `ToNumber` on an already-trimmed character list. -/
def numFromChars (l : List Char) : JSNum :=
  match l with
  | [] => JSNum.num 0
  | _ =>
    if 2 ≤ l.length ∧ l.head! = '0' ∧ (l.get! 1 = 'x' ∨ l.get! 1 = 'X') then
      let ds := l.drop 2
      if ds ≠ [] ∧ ds.all isHexDigit then jsOverflow (natOfHexDigits ds) else JSNum.nan
    else if 2 ≤ l.length ∧ l.head! = '0' ∧ (l.get! 1 = 'b' ∨ l.get! 1 = 'B') then
      let ds := l.drop 2
      if ds ≠ [] ∧ ds.all (fun c => c = '0' ∨ c = '1') then
        jsOverflow (natOfBinDigits ds) else JSNum.nan
    else if 2 ≤ l.length ∧ l.head! = '0' ∧ (l.get! 1 = 'o' ∨ l.get! 1 = 'O') then
      let ds := l.drop 2
      if ds ≠ [] ∧ ds.all (fun c => 48 ≤ c.toNat ∧ c.toNat ≤ 55) then
        jsOverflow (natOfOctDigits ds) else JSNum.nan
    else
      let (neg, body) := signSplit l
      if body = ['I', 'n', 'f', 'i', 'n', 'i', 't', 'y'] then
        if neg then JSNum.ninf else JSNum.inf
      else
        match parseDecLiteral neg body with
        | some q => jsOverflow q
        | none => JSNum.nan

/-- JavaScript `Number(s)` on a character list (trims, empty string is `0`). -/
def jsNumberChars (l : List Char) : JSNum :=
  numFromChars (jsTrim l)

/-- JavaScript `Number(s)`. -/
def jsNumber (s : String) : JSNum :=
  jsNumberChars s.toList

/-- Exponent part consumed by `parseFloat` longest-match: a leading
well-formed `e`/`E` exponent contributes its value, anything else `0`. -/
def parseExpLead (l : List Char) : ℤ :=
  match l with
  | c :: rest =>
    if c = 'e' ∨ c = 'E' then
      let (eneg, ds) := signSplit rest
      let dds := ds.takeWhile Char.isDigit
      if dds ≠ [] then (if eneg then -1 else 1) * natOfDigits dds else 0
    else 0
  | [] => 0

/-- JavaScript `parseFloat(s)`: trims leading whitespace, converts the
longest prefix that is a signed decimal literal or `Infinity`, `NaN` if
there is none. -/
def jsParseFloat (s : String) : JSNum :=
  let l := s.toList.dropWhile isJsSpace
  let (neg, body) := signSplit l
  if body.take 8 = ['I', 'n', 'f', 'i', 'n', 'i', 't', 'y'] then
    if neg then JSNum.ninf else JSNum.inf
  else
    let ip := body.takeWhile Char.isDigit
    let r1 := body.drop ip.length
    let (fp, r2) : List Char × List Char :=
      if r1.head? = some '.' then
        (r1.tail.takeWhile Char.isDigit,
         r1.tail.drop (r1.tail.takeWhile Char.isDigit).length)
      else ([], r1)
    if ip = [] ∧ fp = [] then JSNum.nan
    else
      jsOverflow (decLiteralVal neg (natOfDigits ip) (natOfDigits fp) fp.length
        (parseExpLead r2))

/-!
## Slot generator (`frontend/src/utils/dateTime.ts`, `generateTimeSlots`)
-/

/-- Model of `const [h, m] = time.split(':').map(Number); h * 60 + m` — the parsed
minute-of-day value of a time string.  A missing second field destructures
to `undefined`, which the arithmetic coerces to `NaN`. -/
def parseTimeMinutes (s : String) : JSNum :=
  match splitOnChar ':' s.toList with
  | [] => JSNum.nan
  | [h] => jsAdd (jsMul (jsNumberChars h) (JSNum.num 60)) JSNum.nan
  | h :: m :: _ => jsAdd (jsMul (jsNumberChars h) (JSNum.num 60)) (jsNumberChars m)

/-- Number of iterations of the loop
`for (let t = o; t + dm <= c; t += 60)` for finite `o`, `c`, `dm`. -/
def slotCount (o c dm : ℚ) : ℕ :=
  if o + dm ≤ c then (⌊(c - dm - o) / 60⌋).toNat + 1 else 0

/-- Model of `generateTimeSlots(openingTime, closingTime, durationHours)`: the list
of generated slot start times, by minute-of-day value.  `none` models the
executions on which the source's `for` loop diverges (parsed opening
`-Infinity`, or parsed closing `+Infinity` reachable from the opening):
on those the loop condition never becomes false.  All other executions
terminate and return a list. -/
def generateTimeSlots (openingTime closingTime : String)
    (durationHours : ℚ) : Option (List ℚ) :=
  let op := parseTimeMinutes openingTime
  let cl := parseTimeMinutes closingTime
  let dm : ℚ := durationHours * 60
  match op, cl with
  | JSNum.nan, _ => some []
  | _, JSNum.nan => some []
  | JSNum.num o, JSNum.num c =>
      some ((List.range (slotCount o c dm)).map fun i : ℕ => o + 60 * (i : ℚ))
  | JSNum.num _, JSNum.inf => none
  | JSNum.num _, JSNum.ninf => some []
  | JSNum.inf, JSNum.inf => none
  | JSNum.inf, _ => some []
  | JSNum.ninf, _ => none

/-!
## Pricing calculator (`frontend/src/pages/BookingSummary.tsx`,
`calculateTotals`, and the capped-deposit variant of the same component
found elsewhere in the repository)
-/

/-- The fields of a studio location read by the pricing calculator. -/
structure Location where
  hourlyRate : String
deriving DecidableEq, Repr

/-- The fields of an additional service read by the pricing calculator. -/
structure Service where
  price : String
deriving DecidableEq, Repr

/-- The fields of a rental (clothing) item read by the pricing calculator. -/
structure ClothingItem where
  price : String
deriving DecidableEq, Repr

/-- One cart line: an item together with the requested quantity. -/
structure CartLine where
  item : ClothingItem
  quantity : ℚ
deriving DecidableEq, Repr

/-- The record returned by `calculateTotals`. -/
structure Totals where
  baseCost : JSNum
  servicesCost : JSNum
  clothingCost : JSNum
  totalAmount : JSNum
  depositAmount : JSNum
deriving DecidableEq, Repr

/-- Model of `selectedLocation?.hourlyRate || '0'`: the rate string actually fed to
`parseFloat` (`undefined` and the empty string are falsy). -/
def effectiveRateString (selectedLocation : Option Location) : String :=
  match selectedLocation with
  | none => "0"
  | some loc => if loc.hourlyRate = "" then "0" else loc.hourlyRate

/-- Model of `calculateTotals` of `BookingSummary.tsx`:
base cost `parseFloat(rate) * durationHours`, services and clothing costs by
`reduce` with initial `0`, `propsCost = 0`, and
`depositAmount = totalAmount * 0.3`. -/
def calculateTotals (selectedLocation : Option Location) (durationHours : ℚ)
    (selectedServices : List Service) (clothingCart : List CartLine) : Totals :=
  let baseCost :=
    jsMul (jsParseFloat (effectiveRateString selectedLocation)) (JSNum.num durationHours)
  let servicesCost := selectedServices.foldl
    (fun sum service => jsAdd sum (jsParseFloat service.price)) (JSNum.num 0)
  let clothingCost := clothingCart.foldl
    (fun sum line => jsAdd sum (jsMul (jsParseFloat line.item.price) (JSNum.num line.quantity)))
    (JSNum.num 0)
  let propsCost := JSNum.num 0
  let totalAmount := jsAdd (jsAdd (jsAdd baseCost servicesCost) clothingCost) propsCost
  let depositAmount := jsMul totalAmount (JSNum.num (3 / 10))
  { baseCost := baseCost, servicesCost := servicesCost, clothingCost := clothingCost,
    totalAmount := totalAmount, depositAmount := depositAmount }

/-- The capped-deposit variant of `calculateTotals` (same totals;
`depositAmount = Math.min(totalAmount * 0.5, parseFloat(rate))`). -/
def calculateTotalsCapped (selectedLocation : Option Location) (durationHours : ℚ)
    (selectedServices : List Service) (clothingCart : List CartLine) : Totals :=
  let baseCost :=
    jsMul (jsParseFloat (effectiveRateString selectedLocation)) (JSNum.num durationHours)
  let servicesCost := selectedServices.foldl
    (fun sum service => jsAdd sum (jsParseFloat service.price)) (JSNum.num 0)
  let clothingCost := clothingCart.foldl
    (fun sum line => jsAdd sum (jsMul (jsParseFloat line.item.price) (JSNum.num line.quantity)))
    (JSNum.num 0)
  let propsCost := JSNum.num 0
  let totalAmount := jsAdd (jsAdd (jsAdd baseCost servicesCost) clothingCost) propsCost
  let hourlyRate := jsParseFloat (effectiveRateString selectedLocation)
  let halfTotal := jsMul totalAmount (JSNum.num (1 / 2))
  let maxDeposit := hourlyRate
  let depositAmount := jsMin halfTotal maxDeposit
  { baseCost := baseCost, servicesCost := servicesCost, clothingCost := clothingCost,
    totalAmount := totalAmount, depositAmount := depositAmount }

/-- Modelled from the spec: the percentage deposit policy
`deposit = total × depositPercentage`, where the percentage is the
configured `BookingSettings.depositPercentage` (the settings value itself
is external configuration, so it appears here as the parameter `p`). -/
def specDepositPercentagePolicy (p : ℚ) (total : JSNum) : JSNum :=
  jsMul total (JSNum.num p)

/-- Modelled from the spec: the capped deposit policy
`deposit = min(total × 0.5, hourlyRate)`. -/
def specDepositCappedPolicy (hourlyRate total : JSNum) : JSNum :=
  jsMin (jsMul total (JSNum.num (1 / 2))) hourlyRate

/-!
## Form validation (`frontend/src/utils/validation.ts`)
-/

/-- Characters removed by `phone.replace(/[\s\-\(\)]/g, '')`. -/
def phoneStrippedChar (c : Char) : Bool :=
  isJsSpace c || c = '-' || c = '(' || c = ')'

/-- The cleaned phone character list. -/
def cleanPhoneChars (l : List Char) : List Char :=
  l.filter (fun c => ¬ phoneStrippedChar c)

/-- The test of `/^(\+?380|0)\d{9}$/`: the accepted strings are exactly
`+380`, `380` or `0` followed by nine digits. -/
def phoneRegexTest : List Char → Bool
  | '+' :: '3' :: '8' :: '0' :: rest => rest.length = 9 && rest.all Char.isDigit
  | '3' :: '8' :: '0' :: rest => rest.length = 9 && rest.all Char.isDigit
  | '0' :: rest => rest.length = 9 && rest.all Char.isDigit
  | _ => false

/-- The two-character operator code extracted by `validatePhoneNumber`
(`substring(4,6)`, `substring(3,5)` or `substring(1,3)` depending on the
leading form of the cleaned phone). -/
def operatorCode (clean : List Char) : String :=
  if ['+', '3', '8', '0'].isPrefixOf clean then String.mk ((clean.drop 4).take 2)
  else if ['3', '8', '0'].isPrefixOf clean then String.mk ((clean.drop 3).take 2)
  else String.mk ((clean.drop 1).take 2)

/-- The whitelist of Ukrainian mobile operator codes. -/
def validOperatorCodes : List String :=
  ["39", "50", "63", "66", "67", "68", "73", "91", "92", "93", "94", "95",
   "96", "97", "98", "99"]

/-- Model of `validatePhoneNumber(phone).valid` — the source pairs this flag with a
display message, which no claim inspects. -/
def validatePhoneNumber (phone : String) : Bool :=
  if (jsTrim phone.toList).isEmpty then false
  else
    let clean := cleanPhoneChars phone.toList
    if ¬ phoneRegexTest clean then false
    else if ¬ validOperatorCodes.contains (operatorCode clean) then false
    else true

/-- Model of `normalizePhoneNumber(phone)`: cleans, then rewrites any of the
accepted leading forms to `+380…`. -/
def normalizePhoneNumber (phone : String) : String :=
  let clean := cleanPhoneChars phone.toList
  if ['+', '3', '8', '0'].isPrefixOf clean then String.mk clean
  else if ['3', '8', '0'].isPrefixOf clean then String.mk ('+' :: clean)
  else if ['0'].isPrefixOf clean then String.mk ('+' :: '3' :: '8' :: clean)
  else String.mk clean

/-- The canonical-phone shape named by the spec: `+380` followed by exactly
nine digits whose first two form a whitelisted operator code. -/
def normalizedPhonePattern (s : String) : Bool :=
  match s.toList with
  | '+' :: '3' :: '8' :: '0' :: rest =>
      rest.length = 9 && rest.all Char.isDigit &&
        validOperatorCodes.contains (String.mk (rest.take 2))
  | _ => false

/-- Whether a character is an ASCII letter or digit (regex `[a-zA-Z0-9]`). -/
def isAsciiAlnum (c : Char) : Bool :=
  c.isAlpha || c.isDigit

/-- The special characters of the email regex's local-part class
`[a-zA-Z0-9.!#$%&'*+/=?^_`{|}~-]`, by code point. -/
def emailLocalSpecials : List Nat :=
  [33, 35, 36, 37, 38, 39, 42, 43, 45, 46, 47, 61, 63, 94, 95, 96, 123, 124, 125, 126]

/-- Membership in the local-part character class. -/
def isEmailLocalChar (c : Char) : Bool :=
  isAsciiAlnum c || emailLocalSpecials.contains c.toNat

/-- One domain label: `[a-zA-Z0-9](?:[a-zA-Z0-9-]{0,61}[a-zA-Z0-9])?` —
length 1–63, alphanumeric at both ends, alphanumeric or `-` inside. -/
def emailLabelOK (l : List Char) : Bool :=
  match l with
  | [] => false
  | [c] => isAsciiAlnum c
  | c :: rest =>
      isAsciiAlnum c && l.length ≤ 63 && isAsciiAlnum (l.getLast!) &&
        (rest.dropLast.all fun d => isAsciiAlnum d || d = '-')

/-- The test of the source's email regex
`/^[a-zA-Z0-9.!#$%&'*+/=?^_`{|}~-]+@[a-zA-Z0-9](?:[a-zA-Z0-9-]{0,61}[a-zA-Z0-9])?(?:\.[a-zA-Z0-9](?:[a-zA-Z0-9-]{0,61}[a-zA-Z0-9])?)*$/`:
since neither character class contains `@`, a match is exactly one `@`
splitting a non-empty local part in the local class from a dot-separated
sequence of well-formed labels. -/
def emailRegexTest (l : List Char) : Bool :=
  match splitOnChar '@' l with
  | [localPart, domain] =>
      localPart ≠ [] && localPart.all isEmailLocalChar &&
        (splitOnChar '.' domain).all emailLabelOK
  | _ => false

/-- Whether the list contains two consecutive dots (`includes('..')`). -/
def hasConsecutiveDots : List Char → Bool
  | '.' :: '.' :: _ => true
  | _ :: rest => hasConsecutiveDots rest
  | [] => false

/-- The local part `email.split('@')[0]`. -/
def emailLocalPart (l : List Char) : List Char :=
  (splitOnChar '@' l).headD []

/-- The domain part `email.split('@')[1]` (empty if there is no `@`). -/
def emailDomainPart (l : List Char) : List Char :=
  (splitOnChar '@' l).getD 1 []

/-- Model of `validateEmail(email).valid`: empty check, regex, total length ≤ 254,
local part ≤ 64, domain contains a dot, no consecutive dots — in the
source's order.  (After the regex passes, `split('@')` has exactly two
parts, so the source's destructuring is safe.) -/
def validateEmail (email : String) : Bool :=
  let cs := email.toList
  if (jsTrim cs).isEmpty then false
  else if ¬ emailRegexTest cs then false
  else if 254 < cs.length then false
  else if 64 < (emailLocalPart cs).length then false
  else if ¬ (emailDomainPart cs).contains '.' then false
  else if hasConsecutiveDots cs then false
  else true

/-!
## Spec-side notions used to state the claims
-/

/-- Whether a character is an ASCII decimal digit, as a value. -/
def digitVal (c : Char) : ℕ := c.toNat - 48

/-- A well-formed same-day `HH:MM` time string: two digits, a colon, two
digits, with hours below 24 and minutes below 60. -/
def isHHMM (s : String) : Bool :=
  match s.toList with
  | [h1, h2, ':', m1, m2] =>
      h1.isDigit && h2.isDigit && m1.isDigit && m2.isDigit &&
        10 * digitVal h1 + digitVal h2 < 24 && 10 * digitVal m1 + digitVal m2 < 60
  | _ => false

/-- The minute-of-day value of a well-formed `HH:MM` string (junk `0`
otherwise). -/
def hhmmVal (s : String) : ℚ :=
  match s.toList with
  | [h1, h2, ':', m1, m2] =>
      ((10 * digitVal h1 + digitVal h2) * 60 + (10 * digitVal m1 + digitVal m2) : ℕ)
  | _ => 0

/-!
## Helper lemmas: characters and numeric parsing
-/

theorem digit_toNat_bounds (c : Char) (h : c.isDigit = true) :
    48 ≤ c.toNat ∧ c.toNat ≤ 57 := by
  simp only [Char.isDigit, ge_iff_le, Bool.and_eq_true, decide_eq_true_eq] at h
  obtain ⟨h1, h2⟩ := h
  constructor
  · exact h1
  · exact h2

theorem digit_ne_of_toNat (c d : Char) (h : c.toNat ≠ d.toNat) : c ≠ d :=
  fun h2 => h (congrArg Char.toNat h2)

theorem digit_not_jsSpace (c : Char) (h : c.isDigit = true) : isJsSpace c = false := by
  obtain ⟨h1, h2⟩ := digit_toNat_bounds c h
  simp only [isJsSpace, List.mem_cons, List.not_mem_nil, or_false, decide_eq_false_iff_not]
  omega

theorem jsOverflow_small (q : ℚ) (h1 : -1000000000000 ≤ q) (h2 : q ≤ 1000000000000) :
    jsOverflow q = JSNum.num q := by
  have hle : (2 ^ 970 : ℕ) ≤ 2 ^ 1024 := Nat.pow_le_pow_right (by norm_num) (by norm_num)
  have hbig : (1000000000000 : ℚ) < ((2 ^ 1024 - 2 ^ 970 : ℕ) : ℚ) := by
    rw [Nat.cast_sub hle]
    push_cast
    norm_num
  rw [jsOverflow, if_neg (by linarith), if_neg (by linarith)]

theorem natOfDigits_two (d1 d2 : Char) :
    natOfDigits [d1, d2] = 10 * (d1.toNat - 48) + (d2.toNat - 48) := by
  simp [natOfDigits, List.foldl]

theorem decLiteralVal_int (n : ℕ) : decLiteralVal false n 0 0 0 = (n : ℚ) := by
  simp [decLiteralVal, Rat.mkRat_eq_div]

theorem parseDecLiteral_two (d1 d2 : Char)
    (h1 : d1.isDigit = true) (h2 : d2.isDigit = true) :
    parseDecLiteral false [d1, d2] = some ((natOfDigits [d1, d2] : ℚ)) := by
  rw [parseDecLiteral]
  simp [List.takeWhile_cons, h1, h2, parseExpAll]
  rw [show natOfDigits ([] : List Char) = 0 from rfl, decLiteralVal_int]

theorem jsNumberChars_two_digits (d1 d2 : Char)
    (h1 : d1.isDigit = true) (h2 : d2.isDigit = true) :
    jsNumberChars [d1, d2] = JSNum.num ((10 * digitVal d1 + digitVal d2 : ℕ)) := by
  obtain ⟨h1a, h1b⟩ := digit_toNat_bounds d1 h1
  obtain ⟨h2a, h2b⟩ := digit_toNat_bounds d2 h2
  have htrim : jsTrim [d1, d2] = [d1, d2] := by
    simp [jsTrim, List.dropWhile, digit_not_jsSpace d1 h1, digit_not_jsSpace d2 h2]
  rw [jsNumberChars, htrim]
  have hget : ([d1, d2] : List Char).get! 1 = d2 := by simp [List.get!]
  have hcond : ∀ a b : Char, 57 < a.toNat → 57 < b.toNat →
      ¬(2 ≤ ([d1, d2] : List Char).length ∧ ([d1, d2] : List Char).head! = '0' ∧
        (([d1, d2] : List Char).get! 1 = a ∨ ([d1, d2] : List Char).get! 1 = b)) := by
    intro a b ha hb hc
    obtain ⟨-, -, hc3⟩ := hc
    rw [hget] at hc3
    rcases hc3 with rfl | rfl <;> omega
  have hsign : signSplit [d1, d2] = (false, [d1, d2]) := by
    rw [signSplit, if_neg, if_neg]
    · intro hr
      simp only [List.head?_cons, Option.some.injEq] at hr
      subst hr
      exact absurd h1a (by decide)
    · intro hr
      simp only [List.head?_cons, Option.some.injEq] at hr
      subst hr
      exact absurd h1a (by decide)
  rw [numFromChars]
  any_goals (intro hr; simp at hr)
  rw [if_neg (hcond 'x' 'X' (by decide) (by decide))]
  rw [if_neg (hcond 'b' 'B' (by decide) (by decide))]
  rw [if_neg (hcond 'o' 'O' (by decide) (by decide))]
  rw [hsign]
  show (if [d1, d2] = ['I', 'n', 'f', 'i', 'n', 'i', 't', 'y'] then
      (if false = true then JSNum.ninf else JSNum.inf)
    else
      match parseDecLiteral false [d1, d2] with
      | some q => jsOverflow q
      | none => JSNum.nan) = JSNum.num ((10 * digitVal d1 + digitVal d2 : ℕ) : ℚ)
  rw [if_neg (show ¬([d1, d2] = ['I', 'n', 'f', 'i', 'n', 'i', 't', 'y']) by simp)]
  rw [parseDecLiteral_two d1 d2 h1 h2]
  have hval : natOfDigits [d1, d2] ≤ 99 := by
    rw [natOfDigits_two]; omega
  show jsOverflow ((natOfDigits [d1, d2] : ℕ) : ℚ) =
    JSNum.num ((10 * digitVal d1 + digitVal d2 : ℕ) : ℚ)
  rw [jsOverflow_small _ (by have h0 : (0 : ℚ) ≤ ((natOfDigits [d1, d2] : ℕ) : ℚ) := Nat.cast_nonneg _; linarith) (by
    have h99 : ((natOfDigits [d1, d2] : ℚ)) ≤ 99 := by exact_mod_cast hval
    linarith)]
  congr 1
  rw [natOfDigits_two]
  simp [digitVal]

theorem digit_ne_colon (c : Char) (h : c.isDigit = true) : (c = ':') = False := by
  obtain ⟨-, hb⟩ := digit_toNat_bounds c h
  simp only [eq_iff_iff, iff_false]
  intro hc
  subst hc
  exact absurd hb (by decide)

theorem parseTimeMinutes_hhmm (s : String) (h : isHHMM s = true) :
    parseTimeMinutes s = JSNum.num (hhmmVal s) := by
  rw [isHHMM] at h
  split at h
  · rename_i d1 d2 m1 m2 heq
    simp only [Bool.and_eq_true, decide_eq_true_eq] at h
    obtain ⟨⟨⟨⟨⟨hd1, hd2⟩, hm1⟩, hm2⟩, -⟩, -⟩ := h
    rw [parseTimeMinutes, heq]
    have hsplit : splitOnChar ':' [d1, d2, ':', m1, m2] = [[d1, d2], [m1, m2]] := by
      simp [splitOnChar, digit_ne_colon d1 hd1, digit_ne_colon d2 hd2,
        digit_ne_colon m1 hm1, digit_ne_colon m2 hm2]
    rw [hsplit]
    show JSNum.jsAdd (JSNum.jsMul (jsNumberChars [d1, d2]) (JSNum.num 60))
      (jsNumberChars [m1, m2]) = JSNum.num (hhmmVal s)
    rw [jsNumberChars_two_digits d1 d2 hd1 hd2, jsNumberChars_two_digits m1 m2 hm1 hm2]
    rw [hhmmVal, heq]
    simp only [jsMul, jsAdd, JSNum.num.injEq]
    push_cast
    ring
  · exact absurd h (by simp)

theorem lt_slotCount_iff (o c dm : ℚ) (i : ℕ) :
    i < slotCount o c dm ↔ o + 60 * i + dm ≤ c := by
  rw [slotCount]
  split
  · rename_i hle
    have h0 : (0 : ℚ) ≤ (c - dm - o) / 60 := by
      apply div_nonneg _ (by norm_num)
      linarith
    have hf : 0 ≤ ⌊(c - dm - o) / 60⌋ := Int.floor_nonneg.mpr h0
    constructor
    · intro hi
      have h4 : (i : ℤ) ≤ ⌊(c - dm - o) / 60⌋ := by omega
      have hi3 : (i : ℚ) ≤ (c - dm - o) / 60 :=
        le_trans (by exact_mod_cast Int.cast_le.mpr h4) (Int.floor_le _)
      have h5 : (i : ℚ) * 60 ≤ c - dm - o := (le_div_iff₀ (by norm_num)).mp hi3
      linarith
    · intro hle2
      have h5 : (i : ℚ) ≤ (c - dm - o) / 60 := by
        rw [le_div_iff₀ (by norm_num : (0 : ℚ) < 60)]
        linarith
      have h6 : (i : ℤ) ≤ ⌊(c - dm - o) / 60⌋ := Int.le_floor.mpr (by exact_mod_cast h5)
      omega
  · rename_i hnle
    constructor
    · intro hi
      exact absurd hi (by omega)
    · intro hle2
      exfalso
      apply hnle
      have h7 : (0 : ℚ) ≤ 60 * i := by positivity
      linarith

theorem generateTimeSlots_num (o c : String) (d oq cq : ℚ)
    (ho : parseTimeMinutes o = JSNum.num oq) (hc : parseTimeMinutes c = JSNum.num cq) :
    generateTimeSlots o c d =
      some ((List.range (slotCount oq cq (d * 60))).map fun i : ℕ => oq + 60 * (i : ℚ)) := by
  simp only [generateTimeSlots, ho, hc]

/-- **C1.** For well-formed `HH:MM` opening and closing times with
`opening < closing` and positive `durationHours`, `generateTimeSlots`
returns a list whose `i`-th start time is exactly `opening + 60·i`
minutes (so the list starts at the opening time and is strictly
increasing in steps of exactly 60 minutes), and every start time `s`
satisfies `opening ≤ s` and `s + duration ≤ closing`. -/
theorem generateTimeSlots_bounds (o c : String) (d : ℚ)
    (ho : isHHMM o = true) (hc : isHHMM c = true)
    (_hoc : hhmmVal o < hhmmVal c) (_hd : 0 < d) :
    ∃ l : List ℚ, generateTimeSlots o c d = some l ∧
      (∀ i : ℕ, ∀ hi : i < l.length, l[i] = hhmmVal o + 60 * (i : ℚ)) ∧
      (∀ s ∈ l, hhmmVal o ≤ s ∧ s + d * 60 ≤ hhmmVal c) := by
  have hpo := parseTimeMinutes_hhmm o ho
  have hpc := parseTimeMinutes_hhmm c hc
  refine ⟨_, generateTimeSlots_num o c d _ _ hpo hpc, ?_, ?_⟩
  · intro i hi
    simp
  · intro s hs
    simp only [List.mem_map, List.mem_range] at hs
    obtain ⟨i, hi, rfl⟩ := hs
    constructor
    · have h7 : (0 : ℚ) ≤ 60 * i := by positivity
      linarith
    · have h2 := (lt_slotCount_iff (hhmmVal o) (hhmmVal c) (d * 60) i).mp hi
      linarith

/-- Witness for C1 at `opening = 09:00`, `closing = 20:00`, duration `2`. -/
theorem generateTimeSlots_bounds_witness :
    ∃ l : List ℚ, generateTimeSlots "09:00" "20:00" 2 = some l ∧
      (∀ i : ℕ, ∀ hi : i < l.length, l[i] = hhmmVal "09:00" + 60 * (i : ℚ)) ∧
      (∀ s ∈ l, hhmmVal "09:00" ≤ s ∧ s + 2 * 60 ≤ hhmmVal "20:00") :=
  generateTimeSlots_bounds "09:00" "20:00" 2 (by decide) (by decide) (by decide)
    (by norm_num)

/-!
## Helper lemmas: pricing arithmetic
-/

theorem isNum_exists (x : JSNum) (h : x.isNum = true) : ∃ r, x = JSNum.num r := by
  cases x with
  | num q => exact ⟨q, rfl⟩
  | nan => exact absurd h (by simp [JSNum.isNum])
  | inf => exact absurd h (by simp [JSNum.isNum])
  | ninf => exact absurd h (by simp [JSNum.isNum])

theorem foldl_jsAdd_num {α : Type} (f : α → JSNum) (l : List α) (q : ℚ)
    (h : ∀ x ∈ l, (f x).isNum = true) :
    l.foldl (fun acc x => JSNum.jsAdd acc (f x)) (JSNum.num q) =
      JSNum.num (q + (l.map fun x => (f x).toQ).sum) := by
  induction l generalizing q with
  | nil => simp
  | cons a t ih =>
    obtain ⟨r, hr⟩ := isNum_exists (f a) (h a (by simp))
    rw [List.foldl_cons, hr]
    show t.foldl (fun acc x => JSNum.jsAdd acc (f x)) (JSNum.num (q + r)) = _
    rw [ih (q + r) (fun x hx => h x (List.mem_cons_of_mem a hx))]
    simp [hr, JSNum.toQ]
    ring

theorem jsMul_quantity_isNum (p : JSNum) (q : ℚ) (h : p.isNum = true) :
    (JSNum.jsMul p (JSNum.num q)).isNum = true := by
  obtain ⟨r, hr⟩ := isNum_exists p h
  rw [hr]
  rfl

/-- The total amount computed by `calculateTotals` equals the spec's pricing
formula whenever every monetary string parses to a finite number. -/
theorem totalAmount_formula (loc : Option Location) (dur : ℚ)
    (services : List Service) (cart : List CartLine)
    (hr : (jsParseFloat (effectiveRateString loc)).isNum = true)
    (hs : ∀ s ∈ services, (jsParseFloat s.price).isNum = true)
    (hc : ∀ li ∈ cart, (jsParseFloat li.item.price).isNum = true) :
    (calculateTotals loc dur services cart).totalAmount =
      JSNum.num ((jsParseFloat (effectiveRateString loc)).toQ * dur +
        (services.map fun s => (jsParseFloat s.price).toQ).sum +
        (cart.map fun li => (jsParseFloat li.item.price).toQ * li.quantity).sum) := by
  obtain ⟨r, hrv⟩ := isNum_exists _ hr
  show JSNum.jsAdd (JSNum.jsAdd (JSNum.jsAdd
      (JSNum.jsMul (jsParseFloat (effectiveRateString loc)) (JSNum.num dur))
      (services.foldl (fun sum service => JSNum.jsAdd sum (jsParseFloat service.price))
        (JSNum.num 0)))
      (cart.foldl (fun sum line => JSNum.jsAdd sum
        (JSNum.jsMul (jsParseFloat line.item.price) (JSNum.num line.quantity)))
        (JSNum.num 0))) (JSNum.num 0) = _
  rw [hrv]
  rw [foldl_jsAdd_num (fun s => jsParseFloat s.price) services 0 hs]
  rw [foldl_jsAdd_num
    (fun li => JSNum.jsMul (jsParseFloat li.item.price) (JSNum.num li.quantity)) cart 0
    (fun li hli => jsMul_quantity_isNum _ _ (hc li hli))]
  have hmap : (cart.map fun li =>
      (JSNum.jsMul (jsParseFloat li.item.price) (JSNum.num li.quantity)).toQ) =
      cart.map fun li => (jsParseFloat li.item.price).toQ * li.quantity := by
    apply List.map_congr_left
    intro li hli
    obtain ⟨p, hp⟩ := isNum_exists _ (hc li hli)
    rw [hp]
    rfl
  rw [hmap]
  show JSNum.num (r * dur + (0 + _) + (0 + _) + 0) = _
  simp only [JSNum.toQ, JSNum.num.injEq, zero_add, add_zero]

/-- The totals of the capped variant coincide with those of the primary
version (the two differ only in the deposit line). -/
theorem cappedTotal_eq_total (loc : Option Location) (dur : ℚ)
    (services : List Service) (cart : List CartLine) :
    (calculateTotalsCapped loc dur services cart).totalAmount =
      (calculateTotals loc dur services cart).totalAmount := rfl

theorem depositAmount_eq (loc : Option Location) (dur : ℚ)
    (services : List Service) (cart : List CartLine) :
    (calculateTotals loc dur services cart).depositAmount =
      JSNum.jsMul (calculateTotals loc dur services cart).totalAmount
        (JSNum.num (3 / 10)) := rfl

theorem depositAmountCapped_eq (loc : Option Location) (dur : ℚ)
    (services : List Service) (cart : List CartLine) :
    (calculateTotalsCapped loc dur services cart).depositAmount =
      JSNum.jsMin
        (JSNum.jsMul (calculateTotalsCapped loc dur services cart).totalAmount
          (JSNum.num (1 / 2)))
        (jsParseFloat (effectiveRateString loc)) := rfl

/-- **C2.** The computed total equals `hourlyRate × durationHours` plus the
sum of the selected services' prices plus the sum over cart lines of
`price × quantity`, whenever the monetary strings parse to finite numbers;
and in the scenario with rate `"500.00"`, duration `2.5`, one service
priced `"200.00"` and one cart line `"150.00"` × 2, the total is `1750`. -/
theorem calculateTotals_formula :
    (∀ (loc : Option Location) (dur : ℚ) (services : List Service) (cart : List CartLine),
      (jsParseFloat (effectiveRateString loc)).isNum = true →
      (∀ s ∈ services, (jsParseFloat s.price).isNum = true) →
      (∀ li ∈ cart, (jsParseFloat li.item.price).isNum = true) →
      (calculateTotals loc dur services cart).totalAmount =
        JSNum.num ((jsParseFloat (effectiveRateString loc)).toQ * dur +
          (services.map fun s => (jsParseFloat s.price).toQ).sum +
          (cart.map fun li => (jsParseFloat li.item.price).toQ * li.quantity).sum)) ∧
    (calculateTotals (some ⟨"500.00"⟩) (5 / 2) [⟨"200.00"⟩]
      [⟨⟨"150.00"⟩, 2⟩]).totalAmount = JSNum.num 1750 := by
  constructor
  · exact totalAmount_formula
  · rw [totalAmount_formula (some ⟨"500.00"⟩) (5 / 2) [⟨"200.00"⟩] [⟨⟨"150.00"⟩, 2⟩]
      (by decide) (by decide) (by decide)]
    rw [show jsParseFloat (effectiveRateString (some ⟨"500.00"⟩)) = JSNum.num 500 from
      by decide]
    simp only [List.map_cons, List.map_nil, List.sum_cons, List.sum_nil]
    rw [show jsParseFloat "200.00" = JSNum.num 200 from by decide]
    rw [show jsParseFloat "150.00" = JSNum.num 150 from by decide]
    norm_num [JSNum.toQ]

/-- Witness for C2's quantified formula, at the scenario input. -/
theorem calculateTotals_formula_witness :
    (calculateTotals (some ⟨"500.00"⟩) (5 / 2) [⟨"200.00"⟩]
      [⟨⟨"150.00"⟩, 2⟩]).totalAmount =
      JSNum.num ((jsParseFloat (effectiveRateString (some ⟨"500.00"⟩))).toQ * (5 / 2) +
        (([⟨"200.00"⟩] : List Service).map fun s => (jsParseFloat s.price).toQ).sum +
        (([⟨⟨"150.00"⟩, 2⟩] : List CartLine).map
          fun li => (jsParseFloat li.item.price).toQ * li.quantity).sum) :=
  calculateTotals_formula.1 (some ⟨"500.00"⟩) (5 / 2) [⟨"200.00"⟩] [⟨⟨"150.00"⟩, 2⟩]
    (by decide) (by decide) (by decide)

/-- Counterexample to C3 as stated: with hourly rate `"500.00"` and a
4-hour booking (total `2000`), the primary `calculateTotals` computes
deposit `600 = total × 0.3` with the `0.3` hardcoded; for the configured
deposit percentage `0.5` this matches neither the percentage policy
(`1000`) nor the capped policy (`min(1000, 500) = 500`). -/
theorem depositPolicy_counterexample :
    (calculateTotals (some ⟨"500.00"⟩) 4 [] []).depositAmount ≠
      specDepositPercentagePolicy (1 / 2)
        (calculateTotals (some ⟨"500.00"⟩) 4 [] []).totalAmount ∧
    (calculateTotals (some ⟨"500.00"⟩) 4 [] []).depositAmount ≠
      specDepositCappedPolicy (jsParseFloat (effectiveRateString (some ⟨"500.00"⟩)))
        (calculateTotals (some ⟨"500.00"⟩) 4 [] []).totalAmount := by
  have ht : (calculateTotals (some ⟨"500.00"⟩) 4 [] []).totalAmount = JSNum.num 2000 := by
    rw [totalAmount_formula _ _ _ _ (by decide) (by decide) (by decide)]
    rw [show jsParseFloat (effectiveRateString (some ⟨"500.00"⟩)) = JSNum.num 500 from
      by decide]
    norm_num [JSNum.toQ]
  have hrate : jsParseFloat (effectiveRateString (some ⟨"500.00"⟩)) = JSNum.num 500 :=
    by decide
  constructor
  · rw [depositAmount_eq, ht, specDepositPercentagePolicy]
    show JSNum.num (2000 * (3 / 10)) ≠ JSNum.num (2000 * (1 / 2))
    simp only [ne_eq, JSNum.num.injEq]
    norm_num
  · rw [depositAmount_eq, ht, specDepositCappedPolicy, hrate]
    show JSNum.num (2000 * (3 / 10)) ≠ JSNum.num (min (2000 * (1 / 2)) 500)
    simp only [ne_eq, JSNum.num.injEq]
    rw [show min ((2000 : ℚ) * (1 / 2)) 500 = 500 by norm_num [min_def]]
    norm_num

/-- **C3 (amended).** The deposit is derived by one of the two policies,
but the percentage one uses a constant `0.3` hardcoded in the component —
`BookingSettings.depositPercentage` is never consulted: the primary
version computes `deposit = total × 0.3`, and the capped variant computes
`deposit = min(total × 0.5, hourlyRate)`. -/
theorem depositPolicies (loc : Option Location) (dur : ℚ)
    (services : List Service) (cart : List CartLine) :
    (calculateTotals loc dur services cart).depositAmount =
      specDepositPercentagePolicy (3 / 10)
        (calculateTotals loc dur services cart).totalAmount ∧
    (calculateTotalsCapped loc dur services cart).depositAmount =
      specDepositCappedPolicy (jsParseFloat (effectiveRateString loc))
        (calculateTotalsCapped loc dur services cart).totalAmount :=
  ⟨rfl, rfl⟩

/-- **C4.** With a non-negative hourly rate, duration, service prices,
cart prices and quantities, the computed amounts satisfy
`totalAmount ≥ depositAmount ≥ 0` under both deposit policies (the
hardcoded 30% of the primary version and the capped-half variant). -/
theorem totals_deposit_invariant (loc : Option Location) (dur : ℚ)
    (services : List Service) (cart : List CartLine)
    (hr : (jsParseFloat (effectiveRateString loc)).isNum = true)
    (hr0 : 0 ≤ (jsParseFloat (effectiveRateString loc)).toQ)
    (hd : 0 ≤ dur)
    (hs : ∀ s ∈ services,
      (jsParseFloat s.price).isNum = true ∧ 0 ≤ (jsParseFloat s.price).toQ)
    (hc : ∀ li ∈ cart, (jsParseFloat li.item.price).isNum = true ∧
      0 ≤ (jsParseFloat li.item.price).toQ ∧ 0 ≤ li.quantity) :
    ∃ t dep depC : ℚ,
      (calculateTotals loc dur services cart).totalAmount = JSNum.num t ∧
      (calculateTotals loc dur services cart).depositAmount = JSNum.num dep ∧
      (calculateTotalsCapped loc dur services cart).totalAmount = JSNum.num t ∧
      (calculateTotalsCapped loc dur services cart).depositAmount = JSNum.num depC ∧
      0 ≤ dep ∧ dep ≤ t ∧ 0 ≤ depC ∧ depC ≤ t := by
  have ht := totalAmount_formula loc dur services cart hr (fun s h => (hs s h).1)
    (fun li h => (hc li h).1)
  obtain ⟨r, hrv⟩ := isNum_exists _ hr
  have hr0' : 0 ≤ r := by rw [hrv] at hr0; exact hr0
  have hT0 : 0 ≤ (jsParseFloat (effectiveRateString loc)).toQ * dur +
      (services.map fun s => (jsParseFloat s.price).toQ).sum +
      (cart.map fun li => (jsParseFloat li.item.price).toQ * li.quantity).sum := by
    have h1 : 0 ≤ (jsParseFloat (effectiveRateString loc)).toQ * dur := by
      rw [hrv]
      exact mul_nonneg hr0' hd
    have h2 : 0 ≤ (services.map fun s => (jsParseFloat s.price).toQ).sum := by
      apply List.sum_nonneg
      intro x hx
      simp only [List.mem_map] at hx
      obtain ⟨s, hsm, rfl⟩ := hx
      exact (hs s hsm).2
    have h3 : 0 ≤ (cart.map fun li =>
        (jsParseFloat li.item.price).toQ * li.quantity).sum := by
      apply List.sum_nonneg
      intro x hx
      simp only [List.mem_map] at hx
      obtain ⟨li, hlm, rfl⟩ := hx
      exact mul_nonneg (hc li hlm).2.1 (hc li hlm).2.2
    linarith
  set T : ℚ := (jsParseFloat (effectiveRateString loc)).toQ * dur +
      (services.map fun s => (jsParseFloat s.price).toQ).sum +
      (cart.map fun li => (jsParseFloat li.item.price).toQ * li.quantity).sum with hT
  refine ⟨T, T * (3 / 10), min (T * (1 / 2)) r, ht, ?_, ?_, ?_, ?_, ?_, ?_, ?_⟩
  · rw [depositAmount_eq, ht]
    rfl
  · rw [cappedTotal_eq_total]
    exact ht
  · rw [depositAmountCapped_eq, cappedTotal_eq_total, ht, hrv]
    rfl
  · positivity
  · nlinarith
  · exact le_min (by positivity) hr0'
  · exact le_trans (min_le_left _ _) (by linarith)

/-- Witness for C4 at rate `"500.00"`, duration `2`, one `"200.00"`
service and one `"150.00"` × 2 cart line. -/
theorem totals_deposit_invariant_witness :
    ∃ t dep depC : ℚ,
      (calculateTotals (some ⟨"500.00"⟩) 2 [⟨"200.00"⟩]
        [⟨⟨"150.00"⟩, 2⟩]).totalAmount = JSNum.num t ∧
      (calculateTotals (some ⟨"500.00"⟩) 2 [⟨"200.00"⟩]
        [⟨⟨"150.00"⟩, 2⟩]).depositAmount = JSNum.num dep ∧
      (calculateTotalsCapped (some ⟨"500.00"⟩) 2 [⟨"200.00"⟩]
        [⟨⟨"150.00"⟩, 2⟩]).totalAmount = JSNum.num t ∧
      (calculateTotalsCapped (some ⟨"500.00"⟩) 2 [⟨"200.00"⟩]
        [⟨⟨"150.00"⟩, 2⟩]).depositAmount = JSNum.num depC ∧
      0 ≤ dep ∧ dep ≤ t ∧ 0 ≤ depC ∧ depC ≤ t :=
  totals_deposit_invariant (some ⟨"500.00"⟩) 2 [⟨"200.00"⟩] [⟨⟨"150.00"⟩, 2⟩]
    (by decide) (by decide) (by decide) (by decide) (by decide)

theorem jsAdd_right_comm (z a b : JSNum) :
    JSNum.jsAdd (JSNum.jsAdd z a) b = JSNum.jsAdd (JSNum.jsAdd z b) a := by
  cases z <;> cases a <;> cases b <;> simp [JSNum.jsAdd, add_right_comm]

/-- **C5.** Permuting the selected-services list or the cart-lines list
does not change the computed total amount. -/
theorem totalAmount_perm_invariant (loc : Option Location) (dur : ℚ)
    (s1 s2 : List Service) (c1 c2 : List CartLine)
    (hs : s1.Perm s2) (hc : c1.Perm c2) :
    (calculateTotals loc dur s1 c1).totalAmount =
      (calculateTotals loc dur s2 c2).totalAmount := by
  show JSNum.jsAdd (JSNum.jsAdd (JSNum.jsAdd _
      (s1.foldl (fun sum service => JSNum.jsAdd sum (jsParseFloat service.price))
        (JSNum.num 0)))
      (c1.foldl (fun sum line => JSNum.jsAdd sum
        (JSNum.jsMul (jsParseFloat line.item.price) (JSNum.num line.quantity)))
        (JSNum.num 0))) (JSNum.num 0) = _
  rw [hs.foldl_eq' (fun x _ y _ z => jsAdd_right_comm z _ _) (JSNum.num 0)]
  rw [hc.foldl_eq' (fun x _ y _ z => jsAdd_right_comm z _ _) (JSNum.num 0)]
  rfl

/-- Witness for C5: swapping two services and two cart lines leaves the
total unchanged. -/
theorem totalAmount_perm_invariant_witness :
    (calculateTotals (some ⟨"500.00"⟩) 2 [⟨"100.00"⟩, ⟨"200.00"⟩]
        [⟨⟨"50.00"⟩, 1⟩, ⟨⟨"150.00"⟩, 2⟩]).totalAmount =
      (calculateTotals (some ⟨"500.00"⟩) 2 [⟨"200.00"⟩, ⟨"100.00"⟩]
        [⟨⟨"150.00"⟩, 2⟩, ⟨⟨"50.00"⟩, 1⟩]).totalAmount :=
  totalAmount_perm_invariant (some ⟨"500.00"⟩) 2 _ _ _ _
    (List.Perm.swap _ _ _) (List.Perm.swap _ _ _)

/-- Counterexample to C9 as stated: the malformed opening time `"ab:cd"`
does not make `generateTimeSlots` fail with a `FormatError` — the function
has no failure path at all and returns the ordinary empty list (the
non-numeric fields convert to `NaN`, making the loop condition false). -/
theorem generateTimeSlots_malformed_no_error :
    generateTimeSlots "ab:cd" "20:00" 2 = some [] := by decide

/-- **C9 (amended).** Slot generation never raises an error on malformed
times: a time string either of whose fields converts to `NaN` yields the
empty slot list; and for well-formed times with `closing ≤ opening` and a
positive duration, the result is likewise the empty list (not an error). -/
theorem generateTimeSlots_error_handling (o c : String) (d : ℚ) :
    ((parseTimeMinutes o = JSNum.nan ∨ parseTimeMinutes c = JSNum.nan) →
      generateTimeSlots o c d = some []) ∧
    (isHHMM o = true → isHHMM c = true → hhmmVal c ≤ hhmmVal o → 0 < d →
      generateTimeSlots o c d = some []) := by
  constructor
  · intro h
    rcases h with h | h
    · simp [generateTimeSlots, h]
    · rcases hop : parseTimeMinutes o <;> simp [generateTimeSlots, h, hop]
  · intro ho hc hco hd
    rw [generateTimeSlots_num o c d _ _ (parseTimeMinutes_hhmm o ho)
      (parseTimeMinutes_hhmm c hc)]
    have hcount : slotCount (hhmmVal o) (hhmmVal c) (d * 60) = 0 := by
      rw [slotCount, if_neg]
      intro hle
      linarith
    rw [hcount]
    simp

/-- Witness for C9's amended statement: well-formed times with
`closing ≤ opening` yield the empty list. -/
theorem generateTimeSlots_error_handling_witness :
    generateTimeSlots "18:00" "09:00" 2 = some [] :=
  (generateTimeSlots_error_handling "18:00" "09:00" 2).2 (by decide) (by decide)
    (by decide) (by norm_num)

/-- Counterexample to C10 as stated: `generateTimeSlots` is neither total
nor empty-on-malformed on arbitrary strings — a closing time parsing to
`Infinity` makes the loop diverge (modeled as `none`), and the malformed
opening `"09:"` does not produce the empty list: its empty minute field
silently coerces to `0`, so slots are generated. -/
theorem generateTimeSlots_not_total :
    generateTimeSlots "09:00" "Infinity:00" 1 = none ∧
    generateTimeSlots "09:" "20:00" 2 ≠ some [] := by
  constructor
  · decide
  · have h1 : parseTimeMinutes "09:" = JSNum.num (9 * 60 + 0) := by
      have h : parseTimeMinutes "09:" =
          JSNum.jsAdd (JSNum.jsMul (jsNumberChars ['0', '9']) (JSNum.num 60))
            (jsNumberChars []) := rfl
      rw [show jsNumberChars ['0', '9'] = JSNum.num 9 from by decide,
        show jsNumberChars ([] : List Char) = JSNum.num 0 from by decide] at h
      exact h
    have h2 : parseTimeMinutes "20:00" = JSNum.num (hhmmVal "20:00") :=
      parseTimeMinutes_hhmm "20:00" (by decide)
    rw [generateTimeSlots_num "09:" "20:00" 2 _ _ h1 h2]
    have h3 : slotCount (9 * 60 + 0) (hhmmVal "20:00") (2 * 60) ≠ 0 := by
      intro h0
      have h4 := (lt_slotCount_iff (9 * 60 + 0) (hhmmVal "20:00") (2 * 60) 0).mpr
        (by rw [show hhmmVal "20:00" = 1200 from by decide]; norm_num)
      omega
    intro hcontra
    simp only [Option.some.injEq, List.map_eq_nil_iff, List.range_eq_nil] at hcontra
    exact h3 hcontra

/-- **C10 (amended).** Whenever both parsed time fields are finite or
`NaN` (i.e. neither parses to an infinity), `generateTimeSlots` terminates
without raising and returns a list; if either time has a `NaN` field (the
non-numeric malformed case) that list is empty. -/
theorem generateTimeSlots_total (o c : String) (d : ℚ)
    (ho : (parseTimeMinutes o).finOrNaN = true)
    (hc : (parseTimeMinutes c).finOrNaN = true) :
    ∃ l : List ℚ, generateTimeSlots o c d = some l ∧
      ((parseTimeMinutes o = JSNum.nan ∨ parseTimeMinutes c = JSNum.nan) → l = []) := by
  rcases hop : parseTimeMinutes o with _ | _ | _ | oq <;>
    rcases hcp : parseTimeMinutes c with _ | _ | _ | cq <;>
      simp_all [generateTimeSlots, JSNum.finOrNaN]

/-- Witness for C10's amended statement at a `NaN`-parsing opening time. -/
theorem generateTimeSlots_total_witness :
    ∃ l : List ℚ, generateTimeSlots "ab:xy" "12:00" 1 = some l ∧
      ((parseTimeMinutes "ab:xy" = JSNum.nan ∨ parseTimeMinutes "12:00" = JSNum.nan) →
        l = []) :=
  generateTimeSlots_total "ab:xy" "12:00" 1 (by decide) (by decide)

/-!
## Helper lemmas: phone validation
-/

theorem digit_not_stripped (c : Char) (h : c.isDigit = true) :
    phoneStrippedChar c = false := by
  obtain ⟨ha, hb⟩ := digit_toNat_bounds c h
  simp only [phoneStrippedChar, digit_not_jsSpace c h, Bool.false_or,
    Bool.or_eq_false_iff, decide_eq_false_iff_not]
  refine ⟨⟨fun hc => ?_, fun hc => ?_⟩, fun hc => ?_⟩ <;> subst hc <;>
    exact absurd ha (by decide)

theorem phoneRegex_cases (l : List Char) (h : phoneRegexTest l = true) :
    (∃ rest, l = '+' :: '3' :: '8' :: '0' :: rest ∧ rest.length = 9 ∧
      rest.all Char.isDigit = true) ∨
    (∃ rest, l = '3' :: '8' :: '0' :: rest ∧ rest.length = 9 ∧
      rest.all Char.isDigit = true) ∨
    (∃ rest, l = '0' :: rest ∧ rest.length = 9 ∧ rest.all Char.isDigit = true) := by
  unfold phoneRegexTest at h
  split at h
  · rename_i rest
    refine Or.inl ⟨rest, rfl, ?_, ?_⟩ <;> simp_all
  · rename_i rest
    refine Or.inr (Or.inl ⟨rest, rfl, ?_, ?_⟩) <;> simp_all
  · rename_i rest
    refine Or.inr (Or.inr ⟨rest, rfl, ?_, ?_⟩) <;> simp_all
  · exact absurd h (by simp)

/-- **C6.** Every phone string accepted by `validatePhoneNumber`
normalizes to `+380` followed by exactly nine digits whose first two form
a whitelisted operator code; `"0991234567"` is accepted and normalizes to
`"+380991234567"`, while `"0123456789"` is rejected (operator code `12`). -/
theorem phone_valid_normalizes :
    (∀ p : String, validatePhoneNumber p = true →
      normalizedPhonePattern (normalizePhoneNumber p) = true) ∧
    validatePhoneNumber "0991234567" = true ∧
    normalizePhoneNumber "0991234567" = "+380991234567" ∧
    validatePhoneNumber "0123456789" = false := by
  refine ⟨?_, by decide, by decide, by decide⟩
  intro p hv
  simp only [validatePhoneNumber] at hv
  split_ifs at hv with h1 hre hcode
  rcases phoneRegex_cases _ hre with ⟨rest, hcl, hlen, hdig⟩ |
    ⟨rest, hcl, hlen, hdig⟩ | ⟨rest, hcl, hlen, hdig⟩
  · rw [hcl] at hcode
    simp only [operatorCode, List.isPrefixOf, List.drop] at hcode
    simp only [normalizePhoneNumber, hcl, List.isPrefixOf]
    simp at hcode ⊢
    simp [normalizedPhonePattern, String.toList, hlen, hdig, hcode]
  · rw [hcl] at hcode
    simp only [operatorCode, List.isPrefixOf, List.drop] at hcode
    simp only [normalizePhoneNumber, hcl, List.isPrefixOf]
    simp at hcode ⊢
    simp [normalizedPhonePattern, String.toList, hlen, hdig, hcode]
  · rw [hcl] at hcode
    simp only [operatorCode, List.isPrefixOf, List.drop] at hcode
    simp only [normalizePhoneNumber, hcl, List.isPrefixOf]
    simp at hcode ⊢
    simp [normalizedPhonePattern, String.toList, hlen, hdig, hcode]

/-- Witness for C6's quantified part at the accepted input `"0991234567"`. -/
theorem phone_valid_normalizes_witness :
    normalizedPhonePattern (normalizePhoneNumber "0991234567") = true :=
  phone_valid_normalizes.1 "0991234567" (by decide)

/-- **C7.** `normalizePhoneNumber` sends each of the three accepted raw
forms of the same number to `+380671234567`, and is the identity on every
already-normalized string `+380` followed by nine digits. -/
theorem normalizePhone_roundtrip :
    (normalizePhoneNumber "0671234567" = "+380671234567" ∧
     normalizePhoneNumber "380671234567" = "+380671234567" ∧
     normalizePhoneNumber "+380671234567" = "+380671234567") ∧
    ∀ rest : List Char, rest.length = 9 → rest.all Char.isDigit = true →
      normalizePhoneNumber (String.mk ('+' :: '3' :: '8' :: '0' :: rest)) =
        String.mk ('+' :: '3' :: '8' :: '0' :: rest) := by
  refine ⟨⟨by decide, by decide, by decide⟩, ?_⟩
  intro rest hlen hdig
  have hclean : cleanPhoneChars ('+' :: '3' :: '8' :: '0' :: rest) =
      '+' :: '3' :: '8' :: '0' :: rest := by
    rw [cleanPhoneChars, List.filter_eq_self]
    intro a ha
    simp only [List.mem_cons] at ha
    rcases ha with rfl | rfl | rfl | rfl | ha
    · decide
    · decide
    · decide
    · decide
    · have hd : a.isDigit = true := by
        have := List.all_eq_true.mp hdig a ha
        simpa using this
      simp [digit_not_stripped a hd]
  simp only [normalizePhoneNumber, String.toList, String.mk, hclean, List.isPrefixOf]
  simp

/-- Witness for C7's idempotence part at `+380991234567`. -/
theorem normalizePhone_roundtrip_witness :
    normalizePhoneNumber
        (String.mk ('+' :: '3' :: '8' :: '0' ::
          ['9', '9', '1', '2', '3', '4', '5', '6', '7'])) =
      String.mk ('+' :: '3' :: '8' :: '0' ::
        ['9', '9', '1', '2', '3', '4', '5', '6', '7']) :=
  normalizePhone_roundtrip.2 ['9', '9', '1', '2', '3', '4', '5', '6', '7']
    (by decide) (by decide)

/-- **C8.** The email validator rejects every address containing two
consecutive dots; every accepted address is at most 254 characters with a
local part of at most 64 characters and a domain containing a dot;
`"a..b@example.com"` is rejected and `"ivan@example.com"` accepted. -/
theorem email_rules :
    (∀ e : String, hasConsecutiveDots e.toList = true → validateEmail e = false) ∧
    (∀ e : String, validateEmail e = true →
      e.toList.length ≤ 254 ∧ (emailLocalPart e.toList).length ≤ 64 ∧
      (emailDomainPart e.toList).contains '.' = true) ∧
    validateEmail "a..b@example.com" = false ∧
    validateEmail "ivan@example.com" = true := by
  refine ⟨?_, ?_, by decide, by decide⟩
  · intro e hdots
    simp only [validateEmail]
    split_ifs <;> rfl
  · intro e hv
    simp only [validateEmail] at hv
    split_ifs at hv with h1 h2 h3 h4 h5 h6
    exact ⟨by omega, by omega, h5⟩

/-- Witness for C8's universally quantified parts at the two concrete
addresses. -/
theorem email_rules_witness :
    validateEmail "a..b@example.com" = false ∧
    ("ivan@example.com".toList.length ≤ 254 ∧
      (emailLocalPart "ivan@example.com".toList).length ≤ 64 ∧
      (emailDomainPart "ivan@example.com".toList).contains '.' = true) :=
  ⟨email_rules.1 "a..b@example.com" (by decide),
   email_rules.2.1 "ivan@example.com" (by decide)⟩
